import Mathlib

/-!
Verification development for the go-vault/model-cache repository
(a Hugging-Face-style model cache and parallel download engine).

The Go sources under `src/hub` and `src/unnamed` are shallowly embedded
below: pure helpers become Lean functions on `String`/`List`; effectful
code (HTTP transfers, the two download orchestrators) becomes explicit
state passing over small environment records that supply oracle answers for
filesystem stats, HTTP responses and lock acquisition.  Loops whose
iteration count is bounded by their input receive an explicit fuel
argument chosen at least as large as that bound.
-/

namespace ModelCache

/-! ### Go `path/filepath.Match`

Faithful embedding of Go's `filepath.Match` (pattern, name) on the Linux
platform (`Separator` is `'/'`).  `scanChunk`, `matchChunk` and `getEsc`
mirror the Go standard library functions of the same names; malformed
patterns yield `.err`, mirroring `ErrBadPattern`. -/

/-- Result of `filepath.Match`: a boolean, or `ErrBadPattern`. -/
inductive GoMatchRes where
  | ok (b : Bool)
  | err
deriving DecidableEq, Repr

/-- Result of Go's `matchChunk`: bad pattern, no match, or the unmatched
rest of the name. -/
inductive MatchChunkRes where
  | bad
  | nomatch
  | matched (rest : List Char)
deriving DecidableEq, Repr

/-- Strip the leading `'*'` characters of a pattern; first component
records whether any star was present (Go `scanChunk`, first loop). -/
def stripStars : List Char → Bool × List Char
  | '*' :: p => (true, (stripStars p).2)
  | p => (false, p)

/-- Scan one chunk of the pattern up to the next `'*'` that is not inside
a `[...]` range; a backslash escapes the following character
(Go `scanChunk`, second loop; the boolean argument is `inrange`). -/
def chunkScan : List Char → Bool → List Char × List Char
  | [], _ => ([], [])
  | '\\' :: c :: rest, inr =>
    let r := chunkScan rest inr
    ('\\' :: c :: r.1, r.2)
  | ['\\'], _ => (['\\'], [])
  | '[' :: rest, _ =>
    let r := chunkScan rest true
    ('[' :: r.1, r.2)
  | ']' :: rest, _ =>
    let r := chunkScan rest false
    (']' :: r.1, r.2)
  | '*' :: rest, inr =>
    if inr then
      let r := chunkScan rest inr
      ('*' :: r.1, r.2)
    else ([], '*' :: rest)
  | c :: rest, inr =>
    let r := chunkScan rest inr
    (c :: r.1, r.2)

/-- Go `scanChunk`: strip leading stars, then cut the pattern at the next
top-level `'*'`. -/
def scanChunk (p : List Char) : Bool × List Char × List Char :=
  let s := stripStars p
  let c := chunkScan s.2 false
  (s.1, c.1, c.2)

/-- Go `getEsc`: read one possibly-escaped character of a `[...]` range.
`none` is `ErrBadPattern`. -/
def getEsc : List Char → Option (Char × List Char)
  | [] => none
  | '-' :: _ => none
  | ']' :: _ => none
  | ['\\'] => none
  | '\\' :: c :: rest => if rest.isEmpty then none else some (c, rest)
  | c :: rest => if rest.isEmpty then none else some (c, rest)

/-- The range-parsing loop inside Go `matchChunk`'s `'['` case.  Returns
the chunk after the closing `']'` together with whether rune `r` matched
one of the ranges; `none` is `ErrBadPattern`.  Fuel bounds the number of
ranges; `chunk.length + 1` always suffices since every range consumes at
least one character. -/
def rangeLoop : Nat → List Char → Char → Bool → Nat → Option (List Char × Bool)
  | 0, _, _, _, _ => none
  | fuel + 1, chunk, r, m, nrange =>
    match chunk with
    | ']' :: rest =>
      if 0 < nrange then some (rest, m)
      else
        -- a leading `]` right after `[` or `[^`: getEsc rejects it
        none
    | _ =>
      match getEsc chunk with
      | none => none
      | some (lo, rest) =>
        match rest with
        | '-' :: rest2 =>
          match getEsc rest2 with
          | none => none
          | some (hi, rest3) =>
            rangeLoop fuel rest3 r (m || (lo ≤ r && r ≤ hi)) (nrange + 1)
        | _ => rangeLoop fuel rest r (m || (lo ≤ r && r ≤ lo)) (nrange + 1)

/-- Go `matchChunk chunk s`: match the chunk (no stars) against a prefix
of `s`.  The `failed` flag mirrors Go's: once set, the rest of the chunk
is still consumed so that pattern syntax errors are reported.  Fuel of
`chunk.length + 1` suffices: every loop iteration consumes at least one
chunk character. -/
def matchChunk : Nat → List Char → List Char → Bool → MatchChunkRes
  | _, [], s, failed => if failed then .nomatch else .matched s
  | 0, _ :: _, _, _ => .bad
  | fuel + 1, c0 :: chrest, s, failed0 =>
    let failed := failed0 || s.isEmpty
    if c0 = '[' then
      let r := if failed then Char.ofNat 0 else s.headD (Char.ofNat 0)
      let s1 := if failed then s else s.tail
      let neg := match chrest with
        | '^' :: t => (true, t)
        | _ => (false, chrest)
      match rangeLoop (neg.2.length + 1) neg.2 r false 0 with
      | none => .bad
      | some (chrest2, m) =>
        matchChunk fuel chrest2 s1 (failed || (m == neg.1))
    else if c0 = '?' then
      if failed then matchChunk fuel chrest s true
      else
        match s with
        | [] => matchChunk fuel chrest [] true
        | sc :: srest => matchChunk fuel chrest srest (sc = '/')
    else if c0 = '\\' then
      match chrest with
      | [] => .bad
      | c1 :: chrest2 =>
        if failed then matchChunk fuel chrest2 s true
        else
          match s with
          | [] => matchChunk fuel chrest2 [] true
          | sc :: srest => matchChunk fuel chrest2 srest (c1 ≠ sc)
    else
      if failed then matchChunk fuel chrest s true
      else
        match s with
        | [] => matchChunk fuel chrest [] true
        | sc :: srest => matchChunk fuel chrest srest (c0 ≠ sc)

/-- Outcome of the inner `star` loop of Go `Match`: a new name suffix to
continue with, a bad pattern, or exhaustion of the name. -/
inductive StarRes where
  | found (t : List Char)
  | bad
  | exhausted
deriving DecidableEq, Repr

/-- The inner loop of Go `Match` after a star: try to match `chunk` at
every later position of the name, never skipping past a `'/'`. -/
def starScan (chunk rest : List Char) : List Char → StarRes
  | [] => .exhausted
  | c :: nrest =>
    if c = '/' then .exhausted
    else
      match matchChunk (chunk.length + 1) chunk nrest false with
      | .bad => .bad
      | .matched t =>
        if rest.isEmpty && !t.isEmpty then starScan chunk rest nrest
        else .found t
      | .nomatch => starScan chunk rest nrest

/-- The final loop of Go `Match`: before returning a non-match, check the
remainder of the pattern for well-formedness.  `true` means well-formed. -/
def restWellFormed : Nat → List Char → Bool
  | 0, _ => false
  | _ + 1, [] => true
  | fuel + 1, p =>
    let sc := scanChunk p
    match matchChunk (sc.2.1.length + 1) sc.2.1 [] false with
    | .bad => false
    | _ => restWellFormed fuel sc.2.2

/-- The main `Pattern:` loop of Go `Match`.  Fuel of `pattern.length + 1`
suffices: every iteration consumes at least one pattern character. -/
def goMatchGo : Nat → List Char → List Char → GoMatchRes
  | 0, _, _ => .err
  | _ + 1, [], name => .ok name.isEmpty
  | fuel + 1, p₀ :: p₁, name =>
    let sc := scanChunk (p₀ :: p₁)
    let star := sc.1
    let chunk := sc.2.1
    let rest := sc.2.2
    if star && chunk.isEmpty then
      -- trailing '*' matches the rest of the name unless it has a '/'
      .ok (!name.contains '/')
    else
      let fallback : GoMatchRes :=
        if star then
          match starScan chunk rest name with
          | .found t => goMatchGo fuel rest t
          | .bad => .err
          | .exhausted => if restWellFormed (rest.length + 1) rest then .ok false else .err
        else if restWellFormed (rest.length + 1) rest then .ok false
        else .err
      match matchChunk (chunk.length + 1) chunk name false with
      | .matched t =>
        if t.isEmpty || !rest.isEmpty then goMatchGo fuel rest t
        else fallback
      | .nomatch => fallback
      | .bad => .err

/-- Go `filepath.Match pattern name` on Linux. -/
def goMatch (pattern name : String) : GoMatchRes :=
  goMatchGo (pattern.length + 1) pattern.data name.data

/-- `matched, err := filepath.Match(...)`, used as `err == nil && matched`
by `matchesAnyPattern`: a bad pattern counts as no match. -/
def goMatchBool (pattern name : String) : Bool :=
  match goMatch pattern name with
  | .ok b => b
  | .err => false

/-- Go `filepath.ToSlash` replaces `Separator` with `'/'`; on this
platform `Separator` is already `'/'`, so it is the identity. -/
def toSlash (p : String) : String := p

/-! ### Pattern Filter (`src/hub/file_download.go`, second document) -/

/-- `matchesAnyPattern` from `file_download.go`: each pattern is tried
against the raw path and, if it contains a `'/'`, also against the
slash-normalized path. -/
def matchesAnyPattern (file : String) (patterns : List String) : Bool :=
  patterns.any fun pattern =>
    goMatchBool pattern file ||
      (pattern.data.contains '/' && goMatchBool pattern (toSlash file))

/-- `filterFilesByPattern` from `file_download.go`: both lists empty
returns all files; otherwise drop ignore-matches, then keep files that
match an allow pattern (or everything if the allow list is empty). -/
def filterFilesByPattern (files allowPatterns ignorePatterns : List String) : List String :=
  if allowPatterns.length = 0 ∧ ignorePatterns.length = 0 then files
  else
    files.filter fun file =>
      !matchesAnyPattern file ignorePatterns &&
        (allowPatterns.length = 0 || matchesAnyPattern file allowPatterns)

/-! ### Go `strconv.Atoi` and the large-file pointer parser
(`src/hub/utils.go`, `fetchLFSPointer`) -/

/-- Go `strconv.Atoi`: an optional sign followed by at least one decimal
digit; anything else is an error (`none`).  The 64-bit overflow error of
Go is not modelled: every input used below is small. -/
def goAtoi (s : String) : Option Int :=
  let core : List Char → Option Nat := fun ds =>
    if ds.isEmpty then none
    else if ds.all (·.isDigit) then
      some (ds.foldl (fun acc c => acc * 10 + (c.toNat - '0'.toNat)) 0)
    else none
  match s.data with
  | '+' :: ds => (core ds).map Int.ofNat
  | '-' :: ds => (core ds).map fun n => -(n : Int)
  | ds => (core ds).map Int.ofNat

/-- Splitting a character list at every occurrence of `sep`
(Go `strings.Split` with a one-character separator); the accumulator
holds the current field reversed. -/
def splitOnCharAux (sep : Char) : List Char → List Char → List String
  | [], acc => [String.mk acc.reverse]
  | c :: cs, acc =>
    if c = sep then String.mk acc.reverse :: splitOnCharAux sep cs []
    else splitOnCharAux sep cs (c :: acc)

/-- Go `strings.Split s (String.singleton sep)`. -/
def goSplitChar (s : String) (sep : Char) : List String :=
  splitOnCharAux sep s.data []

/-- Dropping the first `n` characters of a string (the effect of Go
`strings.TrimPrefix` once the prefix is known to be present). -/
def charDrop (s : String) (n : Nat) : String := String.mk (s.data.drop n)

/-- Character-list core of Go `strings.HasPrefix`. -/
def charsHavePre : List Char → List Char → Bool
  | [], _ => true
  | _ :: _, [] => false
  | p :: ps, c :: cs => p = c && charsHavePre ps cs

/-- Go `strings.HasPrefix s pre`. -/
def goHasPrefix (s pre : String) : Bool := charsHavePre pre.data s.data

/-- The parsed large-file pointer (`LFSPointer` in `utils.go`). -/
structure LFSPointer where
  sha256 : String
  size : Int
deriving DecidableEq, Repr

/-- The line scan of `fetchLFSPointer`: split the body on `'\n'`; each
`oid sha256:` line overwrites the sha, each `size ` line overwrites the
size (with a failed `Atoi` swallowed into `0`, as in `size, _ =
strconv.Atoi(...)`). -/
def lfsStep (acc : String × Int) (line : String) : String × Int :=
  if goHasPrefix line "oid sha256:" then (charDrop line 11, acc.2)
  else if goHasPrefix line "size " then (acc.1, (goAtoi (charDrop line 5)).getD 0)
  else acc

/-- The scan of `fetchLFSPointer` over all lines, starting from the Go
zero values `("", 0)`. -/
def lfsScanLines (lines : List String) : String × Int :=
  lines.foldl lfsStep ("", 0)

/-- The parsing tail of `fetchLFSPointer` (`utils.go`), applied to the
response body: fail with the invalid-pointer error when the scanned sha
is empty or the scanned size is `0`. -/
def fetchLFSPointerParse (body : String) : Option LFSPointer :=
  let st := lfsScanLines (goSplitChar body '\n')
  if st.1 = "" ∨ st.2 = 0 then none
  else some ⟨st.1, st.2⟩

/-- Sha carried by the last `oid sha256:` line of a line list, if any:
specification-side recomputation used to characterise `lfsScanLines`. -/
def lastOidSha : List String → Option String
  | [] => none
  | l :: ls =>
    (lastOidSha ls).orElse fun _ =>
      if goHasPrefix l "oid sha256:" then some (charDrop l 11) else none

/-- Parsed value of the last `size ` line of a line list, if any (a
failed `Atoi` counts as `0`): specification-side recomputation. -/
def lastSizeVal : List String → Option Int
  | [] => none
  | l :: ls =>
    (lastSizeVal ls).orElse fun _ =>
      if goHasPrefix l "size " then some ((goAtoi (charDrop l 5)).getD 0) else none

/-- Sha of the last `oid sha256:` line of the body (empty if none). -/
def extractSha (body : String) : String :=
  (lastOidSha (goSplitChar body '\n')).getD ""

/-- Parsed size of the last `size ` line of the body (`0` if none or
unparsable). -/
def extractSize (body : String) : Int :=
  (lastSizeVal (goSplitChar body '\n')).getD 0

/-! ### The `model_index.json` decoder
(`ModelIndex.UnmarshalJSON`, `src/hub/utils.go` second document /
`src/unnamed/part_000`) -/

/-- JSON values.  Objects are association lists in document order; the Go
decoder reads them into a `map[string]json.RawMessage`, so inputs are
assumed to have distinct keys. -/
inductive JSON where
  | null
  | bool (b : Bool)
  | num (n : Int)
  | str (s : String)
  | arr (xs : List JSON)
  | obj (kvs : List (String × JSON))

/-- Go `isBoolean`: `json.Unmarshal(data, &b)` succeeds exactly on the
literals `true`, `false` and `null` (unmarshalling `null` is a no-op). -/
def isBooleanJson : JSON → Bool
  | .bool _ => true
  | .null => true
  | _ => false

/-- `json.Unmarshal` of a raw value into a Go `string` field: succeeds on
a string literal and on `null` (no-op, keeping the zero value). -/
def unmarshalGoString : JSON → Option String
  | .str s => some s
  | .null => some ""
  | _ => none

/-- `json.Unmarshal` of a raw value into `[]string`: `null` yields a nil
slice; an array succeeds when every element is a string or `null` (a
`null` element keeps the zero value `""`). -/
def unmarshalStringList : JSON → Option (List String)
  | .null => some []
  | .arr xs => xs.mapM fun x =>
      match x with
      | .str s => some s
      | .null => some ""
      | _ => none
  | _ => none

/-- The decoded `ModelIndex` (`src/unnamed/part_001`).  `Components` is
kept in document order; `ConnectedPipes` is tagged `json:"-"` in Go so
the decoder always leaves it empty. -/
structure ModelIndex where
  className : String
  diffusersVersion : String
  components : List (String × List String)
deriving DecidableEq, Repr

/-- The `tempIndex` parse of `ModelIndex.UnmarshalJSON`: decoding the
object into a struct with fields `_class_name` and `_diffusers_version`
fails when either key is present with a non-string, non-null value. -/
def tempIndexParse (kvs : List (String × JSON)) : Option (String × String) :=
  match kvs with
  | [] => some ("", "")
  | (k, v) :: rest =>
    match tempIndexParse rest with
    | none => none
    | some acc =>
      if k = "_class_name" then
        match unmarshalGoString v with
        | none => none
        | some s => some (s, acc.2)
      else if k = "_diffusers_version" then
        match unmarshalGoString v with
        | none => none
        | some s => some (acc.1, s)
      else some acc

/-- The component loop of `ModelIndex.UnmarshalJSON`: every key that does
not start with `"_"` and whose value is not boolean/null must unmarshal
as `[]string`, else the whole parse fails. -/
def componentLoop : List (String × JSON) → Option (List (String × List String))
  | [] => some []
  | (k, v) :: rest =>
    if !goHasPrefix k "_" && !isBooleanJson v then
      match unmarshalStringList v with
      | none => none
      | some comp =>
        match componentLoop rest with
        | none => none
        | some cs => some ((k, comp) :: cs)
    else componentLoop rest

/-- `ModelIndex.UnmarshalJSON` on an already-split JSON object: parse the
metadata fields, then run the component loop. -/
def modelIndexUnmarshal (kvs : List (String × JSON)) : Option ModelIndex :=
  match tempIndexParse kvs with
  | none => none
  | some meta =>
    match componentLoop kvs with
    | none => none
    | some comps => some ⟨meta.1, meta.2, comps⟩

/-! ### Commit-hash detection and cache-only lookups
(`src/hub/file_download.go` `findInCache`, `src/unnamed/part_001`
`isCommitHash` / `findCachedSnapshot`) -/

/-- `isCommitHash` (`src/unnamed/part_001`): exactly 40 characters, each
a digit or a lowercase `a`–`f`. -/
def isCommitHash (s : String) : Bool :=
  if s.length ≠ 40 then false
  else s.data.all fun c => ('0' ≤ c && c ≤ '9') || ('a' ≤ c && c ≤ 'f')

/-- The test `regexp.MustCompile("^[0-9a-f]{40}$").MatchString(revision)`
used by `fileDownload` and `findInCache`: 40 characters, all in
`[0-9a-f]`. -/
def commitHashRegexMatches (s : String) : Bool :=
  s.length = 40 && s.data.all fun c => ('0' ≤ c && c ≤ '9') || ('a' ≤ c && c ≤ 'f')

/-- `filepath.Join` of two components; cleaning of `.`/`..` segments is
irrelevant for the paths built here. -/
def joinPath (a b : String) : String := a ++ "/" ++ b

/-- `strings.Join` of Go. -/
def joinWith (sep : String) : List String → String
  | [] => ""
  | [x] => x
  | x :: xs => x ++ sep ++ joinWith sep xs

/-- `filepath.Dir`: the path with its last component removed (our paths
never need the cleaning Go applies). -/
def dirPath (p : String) : String := joinWith "/" ((goSplitChar p '/').dropLast)

/-- `repoFolderName` (`src/hub/utils.go`): `"model","o/r" ↦
"models--o--r"`. -/
def repoFolderName (repoId repoType : String) : String :=
  joinWith "--" ((repoType ++ "s") :: goSplitChar repoId '/')

/-- Filesystem oracle for the cache-only lookups: which paths `os.Stat`
finds, and what `os.ReadFile` returns (`none` = error). -/
structure CacheFS where
  statOk : String → Bool
  readFile : String → Option String

/-- Errors of `findInCache`, one per `fmt.Errorf` return. -/
inductive CacheLookupErr where
  | notFoundAtRevision
  | revisionNotFound
  | fileNotFound
deriving DecidableEq, Repr

/-- The symbolic-ref branch of `findInCache`: read
`refs/<revision>`, then stat `snapshots/<hash>/<file>`. -/
def findInCacheRefs (fs : CacheFS) (storageFolder fileName revision : String) :
    Except CacheLookupErr String :=
  match fs.readFile (joinPath (joinPath storageFolder "refs") revision) with
  | none => .error .revisionNotFound
  | some commitHash =>
    let path := joinPath (joinPath (joinPath storageFolder "snapshots") commitHash) fileName
    if fs.statOk path then .ok path else .error .fileNotFound

/-- `findInCache` (`src/hub/file_download.go`): a revision matching the
commit-hash regex is looked up directly under `snapshots/`; otherwise it
is resolved through `refs/<revision>`. -/
def findInCache (fs : CacheFS) (cacheDir repoId repoType fileName revision : String) :
    Except CacheLookupErr String :=
  let storageFolder := joinPath cacheDir (repoFolderName repoId repoType)
  if commitHashRegexMatches revision then
    let path := joinPath (joinPath (joinPath storageFolder "snapshots") revision) fileName
    if fs.statOk path then .ok path else .error .notFoundAtRevision
  else findInCacheRefs fs storageFolder fileName revision

/-- The refs branch of `findCachedSnapshot` (`src/unnamed/part_001`). -/
def findCachedSnapshotRefs (fs : CacheFS) (storageFolder revision : String) :
    Except CacheLookupErr String :=
  match fs.readFile (joinPath (joinPath storageFolder "refs") revision) with
  | none => .error .revisionNotFound
  | some commitHash =>
    let path := joinPath (joinPath storageFolder "snapshots") commitHash
    if fs.statOk path then .ok path else .error .fileNotFound

/-- `findCachedSnapshot` (`src/unnamed/part_001`): when `isCommitHash`
holds and the snapshot directory exists return it, otherwise fall through
to the `refs/<revision>` resolution. -/
def findCachedSnapshot (fs : CacheFS) (cacheDir repoId repoType revision : String) :
    Except CacheLookupErr String :=
  let storageFolder := joinPath cacheDir (repoFolderName repoId repoType)
  if isCommitHash revision then
    let snapshotPath := joinPath (joinPath storageFolder "snapshots") revision
    if fs.statOk snapshotPath then .ok snapshotPath
    else findCachedSnapshotRefs fs storageFolder revision
  else findCachedSnapshotRefs fs storageFolder revision

/-! ### The three transfer loops

`downloadFile` (`src/hub/file_download.go`), `downloadWithBar`
(`src/hub/parallel_download.go`) and `downloadWithResume`
(`src/hub/downloads.go`).  The HTTP response is an oracle: a status code,
a `Content-Length`, and the sequence of reads the body delivers.  Each
read carries the bytes delivered, the wall-clock time (ms since the loop
started) observed after it, and whether the following `out.Write`
succeeds.  Partial writes are not modelled: a failed write leaves the
byte count unchanged. -/

/-- One successful `reader.Read`: `n` bytes observed at time `time` (ms). -/
structure Chunk where
  n : Nat
  time : Nat
  writeOk : Bool
deriving DecidableEq, Repr

/-- Transfer failure modes, one per `return`/`fmt.Errorf` site. -/
inductive TransferErr where
  | badStatus (code : Nat)
  | resumeFailedStatus (code : Nat)
  | downloadFailedStatus (code : Nat)
  | writeError
  | readError
  | stalled
  | sizeMismatch (expected got : Int)
  | renameFailed
deriving DecidableEq, Repr

/-- Response oracle for a transfer: existing temp-file size (`none` =
no file), HTTP status, `Content-Length`, body reads, and whether the
final read fails (`true`) or is a clean `EOF` (`false`). -/
structure TransferEnv where
  initSize : Option Nat
  statusCode : Nat
  contentLength : Int
  chunks : List Chunk
  readErr : Bool
deriving Repr

/-- The read loop of `downloadFile` (`file_download.go`): write each
chunk, no stall watchdog, no size accounting.  Returns the first error
(if any) and the bytes now in the file. -/
def plainLoop : List Chunk → Nat → Option TransferErr × Nat
  | [], fb => (none, fb)
  | c :: cs, fb =>
    if 0 < c.n then
      if c.writeOk then plainLoop cs (fb + c.n)
      else (some .writeError, fb)
    else plainLoop cs fb

/-- Running state of the stall-watchdog loops. -/
structure StallSt where
  fileBytes : Nat
  downloaded : Nat
  lastUpdate : Nat
  stallTimer : Nat
deriving DecidableEq, Repr

/-- The shared read loop of `downloadWithBar` and `downloadWithResume`:
write the chunk, then if more than 30 s passed since `lastUpdate`,
accumulate the gap into `stallTimer` and abort once it exceeds 2 min;
otherwise reset the timer and advance `lastUpdate`. -/
def stallLoop : List Chunk → StallSt → Option TransferErr × StallSt
  | [], st => (none, st)
  | c :: cs, st =>
    if 0 < c.n then
      if c.writeOk then
        let st1 := { st with
          fileBytes := st.fileBytes + c.n
          downloaded := st.downloaded + c.n }
        if 30000 < c.time - st1.lastUpdate then
          let st2 := { st1 with stallTimer := st1.stallTimer + (c.time - st1.lastUpdate) }
          if 120000 < st2.stallTimer then (some .stalled, st2)
          else stallLoop cs st2
        else stallLoop cs { st1 with stallTimer := 0, lastUpdate := c.time }
      else (some .writeError, st)
    else stallLoop cs st

/-- Final state of a transfer: the error (if any), the bytes left in the
destination file, and for `downloadWithResume` the computed total and
running byte count and whether the temp file was renamed into place. -/
structure TransferResult where
  err : Option TransferErr
  fileBytes : Nat
deriving DecidableEq, Repr

/-- `downloadFile` (`file_download.go`): truncate whenever resuming and
the status is not 206, then reject statuses other than 200/206, then run
the plain read loop.  `expectedSize` only feeds the progress bar and is
never consulted. -/
def downloadFileRun (e : TransferEnv) (expectedSize : Nat) : TransferResult :=
  let _ := expectedSize
  let resumeSize := e.initSize.getD 0
  let fb0 := if 0 < resumeSize ∧ e.statusCode ≠ 206 then 0 else resumeSize
  if e.statusCode ≠ 200 ∧ e.statusCode ≠ 206 then
    { err := some (.badStatus e.statusCode), fileBytes := fb0 }
  else
    match plainLoop e.chunks fb0 with
    | (some er, fb) => { err := some er, fileBytes := fb }
    | (none, fb) =>
      if e.readErr then { err := some .readError, fileBytes := fb }
      else { err := none, fileBytes := fb }

/-- `downloadWithBar` (`parallel_download.go`): same status handling as
`downloadFileRun` (truncate on any non-206 when resuming, then reject
non-200/206), then the stall-watchdog read loop.  No size is known to
this function at all. -/
def downloadWithBarRun (e : TransferEnv) : TransferResult :=
  let resumeSize := e.initSize.getD 0
  let fb0 := if 0 < resumeSize ∧ e.statusCode ≠ 206 then 0 else resumeSize
  if e.statusCode ≠ 200 ∧ e.statusCode ≠ 206 then
    { err := some (.badStatus e.statusCode), fileBytes := fb0 }
  else
    match stallLoop e.chunks ⟨fb0, 0, 0, 0⟩ with
    | (some er, st) => { err := some er, fileBytes := st.fileBytes }
    | (none, st) =>
      if e.readErr then { err := some .readError, fileBytes := st.fileBytes }
      else { err := none, fileBytes := st.fileBytes }

/-- Result of `downloadWithResume`, which additionally tracks the
computed total size, the cumulative downloaded count, and whether the
temp file was renamed onto the destination. -/
structure ResumeResult where
  err : Option TransferErr
  fileBytes : Nat
  totalSize : Int
  downloaded : Nat
  renamed : Bool
deriving DecidableEq, Repr

/-- `downloadWithResume` (`downloads.go`): classify the status (206
resumes, 200 restarts after truncating, anything else fails *without*
touching the file), run the stall-watchdog loop counting
`downloadedSize` from `initialSize`, and at EOF fail with a size
mismatch when a positive total is known and differs from the count;
only then rename the temp file into place. -/
def downloadWithResumeRun (e : TransferEnv) (renameOk : Bool) : ResumeResult :=
  let initialSize := e.initSize.getD 0
  if 0 < initialSize then
    if e.statusCode = 206 then
      downloadLoopPhase e renameOk initialSize initialSize ((initialSize : Int) + e.contentLength)
    else if e.statusCode = 200 then
      downloadLoopPhase e renameOk 0 0 e.contentLength
    else
      { err := some (.resumeFailedStatus e.statusCode), fileBytes := initialSize
        totalSize := 0, downloaded := initialSize, renamed := false }
  else
    if e.statusCode ≠ 200 then
      { err := some (.downloadFailedStatus e.statusCode), fileBytes := initialSize
        totalSize := 0, downloaded := initialSize, renamed := false }
    else
      downloadLoopPhase e renameOk initialSize initialSize e.contentLength
where
  /-- The read loop, size check and final rename of `downloadWithResume`,
  entered after status classification with the file holding `fb0` bytes,
  `downloadedSize` starting at `dl0` and the computed `totalSize`. -/
  downloadLoopPhase (e : TransferEnv) (renameOk : Bool) (fb0 dl0 : Nat) (totalSize : Int) :
      ResumeResult :=
    match stallLoop e.chunks ⟨fb0, dl0, 0, 0⟩ with
    | (some er, st) =>
      { err := some er, fileBytes := st.fileBytes, totalSize := totalSize
        downloaded := st.downloaded, renamed := false }
    | (none, st) =>
      if e.readErr then
        { err := some .readError, fileBytes := st.fileBytes, totalSize := totalSize
          downloaded := st.downloaded, renamed := false }
      else if 0 < totalSize ∧ (st.downloaded : Int) ≠ totalSize then
        { err := some (.sizeMismatch totalSize st.downloaded), fileBytes := st.fileBytes
          totalSize := totalSize, downloaded := st.downloaded, renamed := false }
      else if renameOk then
        { err := none, fileBytes := st.fileBytes, totalSize := totalSize
          downloaded := st.downloaded, renamed := true }
      else
        { err := some .renameFailed, fileBytes := st.fileBytes, totalSize := totalSize
          downloaded := st.downloaded, renamed := false }

/-! ### HTTP client configurations

The `http.Client` literals of the three transfer functions, transcribed
field by field.  `timeoutMs = 0` is Go's "no overall timeout"; a `none`
phase timeout means the field is unset (default transport). -/

/-- Timeouts of an `http.Client` and its transport, in milliseconds. -/
structure HttpClientConfig where
  timeoutMs : Nat
  dialTimeoutMs : Option Nat
  tlsHandshakeTimeoutMs : Option Nat
  responseHeaderTimeoutMs : Option Nat
  idleConnTimeoutMs : Option Nat
deriving DecidableEq, Repr

/-- The client built inside `downloadFile` (`file_download.go`):
`&http.Client{ Timeout: time.Minute * 30 }` with the default transport. -/
def downloadFileClientConfig : HttpClientConfig :=
  { timeoutMs := 30 * 60 * 1000
    dialTimeoutMs := none
    tlsHandshakeTimeoutMs := none
    responseHeaderTimeoutMs := none
    idleConnTimeoutMs := none }

/-- The client built inside `downloadWithBar` (`parallel_download.go`):
no overall timeout, 60 s dial / TLS / response-header / idle timeouts. -/
def downloadWithBarClientConfig : HttpClientConfig :=
  { timeoutMs := 0
    dialTimeoutMs := some (60 * 1000)
    tlsHandshakeTimeoutMs := some (60 * 1000)
    responseHeaderTimeoutMs := some (60 * 1000)
    idleConnTimeoutMs := some (60 * 1000) }

/-- The client built inside `downloadWithResume` (`downloads.go`): same
shape as `downloadWithBarClientConfig`. -/
def downloadWithResumeClientConfig : HttpClientConfig :=
  { timeoutMs := 0
    dialTimeoutMs := some (60 * 1000)
    tlsHandshakeTimeoutMs := some (60 * 1000)
    responseHeaderTimeoutMs := some (60 * 1000)
    idleConnTimeoutMs := some (60 * 1000) }

/-- Modelled from the spec: the client configuration §4.7 prescribes for
every ranged blob transfer — no overall timeout, and 60 s dial,
TLS-handshake, response-header and idle-connection timeouts. -/
def isSpecTransferClient (c : HttpClientConfig) : Bool :=
  c.timeoutMs = 0 &&
    c.dialTimeoutMs = some (60 * 1000) &&
    c.tlsHandshakeTimeoutMs = some (60 * 1000) &&
    c.responseHeaderTimeoutMs = some (60 * 1000) &&
    c.idleConnTimeoutMs = some (60 * 1000)

/-! ### The exponential-backoff retry wrapper

`backoff.NewExponentialBackOff()` as configured in
`parallelDownloader.downloadSingleFile` (`parallel_download.go`) and in
the two `Download` methods of `downloads.go`, together with
`backoff.Retry`'s loop. -/

/-- The three fields the source sets on `NewExponentialBackOff()`. -/
structure BackoffConfig where
  initialIntervalMs : Nat
  maxIntervalMs : Nat
  maxElapsedMs : Nat
deriving DecidableEq, Repr

/-- The configuration built in `downloadSingleFile`
(`parallel_download.go` lines 159–162): 1 s initial interval, 30 s cap,
5 min total elapsed bound. -/
def downloadSingleFileBackoff : BackoffConfig :=
  { initialIntervalMs := 1000, maxIntervalMs := 30000, maxElapsedMs := 300000 }

/-- `incrementCurrentInterval` of the backoff library with the default
multiplier 1.5: grow the interval by half, saturating at the cap. -/
def nextInterval (cfg : BackoffConfig) (interval : Nat) : Nat :=
  if cfg.maxIntervalMs * 2 ≤ interval * 3 then cfg.maxIntervalMs
  else interval * 3 / 2

/-- `backoff.Retry`: run the operation; on failure draw the next sleep
(`draws k`, the randomized value the library picks around the current
interval), stop when the elapsed time plus that sleep would exceed
`maxElapsedMs`, otherwise sleep and retry.  The operation itself is
modelled as instantaneous, so the elapsed time is the sum of the sleeps
taken so far.  Returns the number of attempts made and whether the last
one succeeded; `fuel` bounds the attempts (the retry loop itself is
bounded because every sleep of a legal draw is at least half the 1 s
initial interval, so 601 attempts can never be exceeded — any
`fuel ≥ 601` is exact for legal draws). -/
def retryRun (cfg : BackoffConfig) (outcomes : Nat → Bool) (draws : Nat → Nat) :
    Nat → Nat → Nat → Nat → Nat × Bool
  | 0, k, _, _ => (k, false)
  | fuel + 1, k, elapsed, interval =>
    if outcomes k then (k + 1, true)
    else if cfg.maxElapsedMs < elapsed + draws k then (k + 1, false)
    else retryRun cfg outcomes draws fuel (k + 1) (elapsed + draws k) (nextInterval cfg interval)

/-! ### The two download orchestrators as effect traces

`fileDownload` (`file_download.go`) and the per-file worker of the
parallel snapshot orchestrator (`parallelDownloader.downloadFile` +
`downloadSingleFile`, `parallel_download.go`).  Each run yields the list
of externally visible effects it performs, in order, together with its
result.  Oracle fields of the environment answer the filesystem stats,
the metadata request, the lock acquisition and the transfer outcomes. -/

/-- `FileMetadata` (`src/hub/hub.go`). -/
structure FileMetadata where
  commitHash : String
  etag : String
  location : String
  size : Nat
deriving DecidableEq, Repr

/-- Externally visible effects of the orchestrators. -/
inductive Action where
  | cacheLookup (revision : String)
  | mkdirAll (p : String)
  | statCheck (p : String)
  | metadataFetch (repoId fileName : String)
  | writeRef (p hash : String)
  | tryLock (p : String)
  | unlock (p : String)
  | transferAttempt (url dst : String)
  | rename (src dst : String)
  | symlink (blob pointer : String)
deriving DecidableEq, Repr

/-- Errors surfaced by the orchestrators. -/
inductive HubError where
  | offlineNotCached
  | unsupportedRepoType
  | metadataFailed
  | lockBusy
  | transferFailed
  | renameFailed
  | symlinkFailed
deriving DecidableEq, Repr

/-- Environment of one `fileDownload` call: the request parameters plus
oracle answers for connectivity, the cache, the metadata request, the
stat calls, the lock and the single transfer attempt. -/
structure SingleFileEnv where
  cacheDir : String
  repoId : String
  repoType : String
  fileName : String
  subFolder : String
  revision : String
  force : Bool
  offline : Bool
  localFilesOnly : Bool
  fs : CacheFS
  revSnapshotExists : Bool
  metadata : Option FileMetadata
  pointerExists : Bool
  blobExists : Bool
  lockAcquired : Bool
  transferOk : Bool
  renameOk : Bool
  symlinkOk : Bool

/-- The repo-type check of `fileDownload`: `model`, `space` or
`dataset`. -/
def validRepoType (t : String) : Bool :=
  t = "model" || t = "space" || t = "dataset"

/-- The commit-hash fast-path guard of `fileDownload` (lines 76–81):
regex match, pointer stat, and `!ForceDownload`. -/
def revisionFastPath (env : SingleFileEnv) : Bool :=
  commitHashRegexMatches env.revision && env.revSnapshotExists && !env.force

/-- `fileDownload` (`file_download.go`) as an effect trace.  Mirrors the
source line by line: connectivity check with cache fallback, subfolder
join, repo-type check, storage creation, commit-hash fast path, metadata
resolution, ref caching, pointer/blob fast paths, lock acquisition,
single (unretried) transfer, rename and symlink; the deferred unlock
runs on every exit after acquisition. -/
def fileDownloadRun (env : SingleFileEnv) : List Action × Except HubError String :=
  if env.offline || env.localFilesOnly then
    match findInCache env.fs env.cacheDir env.repoId env.repoType env.fileName env.revision with
    | .ok p => ([.cacheLookup env.revision], .ok p)
    | .error _ => ([.cacheLookup env.revision], .error .offlineNotCached)
  else
    let fileName := if env.subFolder ≠ "" then joinPath env.subFolder env.fileName
      else env.fileName
    if !validRepoType env.repoType then ([], .error .unsupportedRepoType)
    else
      let storageFolder := joinPath env.cacheDir (repoFolderName env.repoId env.repoType)
      let t0 := [Action.mkdirAll storageFolder]
      if commitHashRegexMatches env.revision then
        let pointerPath := joinPath (joinPath (joinPath storageFolder "snapshots") env.revision) fileName
        let t1 := t0 ++ [Action.statCheck pointerPath]
        if env.revSnapshotExists && !env.force then (t1, .ok pointerPath)
        else fileDownloadAfterFastPath env fileName storageFolder t1
      else fileDownloadAfterFastPath env fileName storageFolder t0
where
  /-- `fileDownload` from the metadata request onwards. -/
  fileDownloadAfterFastPath (env : SingleFileEnv) (fileName storageFolder : String)
      (t : List Action) : List Action × Except HubError String :=
    let t := t ++ [Action.metadataFetch env.repoId fileName]
    match env.metadata with
    | none => (t, .error .metadataFailed)
    | some md =>
      let blobPath := joinPath (joinPath storageFolder "blobs") md.etag
      let pointerPath := joinPath (joinPath (joinPath storageFolder "snapshots") md.commitHash) fileName
      let t := t ++ [Action.mkdirAll (dirPath blobPath),
        Action.mkdirAll (dirPath pointerPath)]
      let refPath := joinPath (joinPath storageFolder "refs") env.revision
      let t := if env.revision ≠ md.commitHash then
          t ++ [Action.mkdirAll (dirPath refPath), Action.writeRef refPath md.commitHash]
        else t
      if !env.force && env.pointerExists then
        (t ++ [Action.statCheck pointerPath], .ok pointerPath)
      else if !env.force && env.blobExists then
        if env.symlinkOk then
          (t ++ [Action.statCheck pointerPath, Action.statCheck blobPath,
            Action.symlink blobPath pointerPath], .ok pointerPath)
        else
          (t ++ [Action.statCheck pointerPath, Action.statCheck blobPath,
            Action.symlink blobPath pointerPath], .error .symlinkFailed)
      else
        let t := if !env.force then t ++ [Action.statCheck pointerPath, Action.statCheck blobPath]
          else t
        let locksDir := joinPath env.cacheDir ".locks"
        let modelLockDir := joinPath locksDir (repoFolderName env.repoId env.repoType)
        let lockPath := joinPath modelLockDir (md.etag ++ ".lock")
        let t := t ++ [Action.mkdirAll locksDir, Action.mkdirAll modelLockDir,
          Action.tryLock lockPath]
        if !env.lockAcquired then (t, .error .lockBusy)
        else
          let tmpPath := blobPath ++ ".incomplete"
          let t := t ++ [Action.transferAttempt md.location tmpPath]
          if !env.transferOk then (t ++ [Action.unlock lockPath], .error .transferFailed)
          else
            let t := t ++ [Action.rename tmpPath blobPath]
            if !env.renameOk then (t ++ [Action.unlock lockPath], .error .renameFailed)
            else
              let t := t ++ [Action.symlink blobPath pointerPath]
              if !env.symlinkOk then (t ++ [Action.unlock lockPath], .error .symlinkFailed)
              else (t ++ [Action.unlock lockPath], .ok pointerPath)

/-- Environment of one parallel-snapshot worker
(`parallelDownloader.downloadFile`): request parameters plus oracles for
the metadata request, the stat calls, the per-attempt transfer outcomes
and the backoff draws. -/
structure WorkerEnv where
  cacheDir : String
  repoId : String
  repoType : String
  fileName : String
  force : Bool
  metadata : Option FileMetadata
  pointerExists : Bool
  blobExists : Bool
  attemptOutcomes : Nat → Bool
  draws : Nat → Nat
  fuel : Nat
  renameOk : Bool
  symlinkOk : Bool

/-- The per-file worker of the parallel snapshot orchestrator
(`parallelDownloader.downloadFile` and `downloadSingleFile`,
`parallel_download.go`) as an effect trace: metadata resolution,
pointer/blob fast paths, then the backoff-retried `downloadWithBar`
into `<blob>.incomplete`, rename and symlink.  No lock is involved
anywhere in this flow. -/
def parallelWorkerRun (env : WorkerEnv) : List Action × Except HubError String :=
  let storageFolder := joinPath env.cacheDir (repoFolderName env.repoId env.repoType)
  let t0 := [Action.metadataFetch env.repoId env.fileName]
  match env.metadata with
  | none => (t0, .error .metadataFailed)
  | some md =>
    let pointerPath := joinPath (joinPath (joinPath storageFolder "snapshots") md.commitHash) env.fileName
    let blobPath := joinPath (joinPath storageFolder "blobs") md.etag
    if !env.force && env.pointerExists then
      (t0 ++ [Action.statCheck pointerPath], .ok pointerPath)
    else if !env.force && env.blobExists then
      if env.symlinkOk then
        (t0 ++ [Action.statCheck pointerPath, Action.statCheck blobPath,
          Action.mkdirAll (dirPath pointerPath),
          Action.symlink blobPath pointerPath], .ok pointerPath)
      else
        (t0 ++ [Action.statCheck pointerPath, Action.statCheck blobPath,
          Action.mkdirAll (dirPath pointerPath),
          Action.symlink blobPath pointerPath], .error .symlinkFailed)
    else
      let t := if !env.force then t0 ++ [Action.statCheck pointerPath, Action.statCheck blobPath]
        else t0
      let t := t ++ [Action.mkdirAll (dirPath blobPath),
        Action.mkdirAll (dirPath pointerPath)]
      let tmpPath := blobPath ++ ".incomplete"
      let r := retryRun downloadSingleFileBackoff env.attemptOutcomes env.draws env.fuel 0 0
        downloadSingleFileBackoff.initialIntervalMs
      let t := t ++ List.replicate r.1 (Action.transferAttempt md.location tmpPath)
      if !r.2 then (t, .error .transferFailed)
      else
        let t := t ++ [Action.rename tmpPath blobPath]
        if !env.renameOk then (t, .error .renameFailed)
        else
          let t := t ++ [Action.symlink blobPath pointerPath]
          if !env.symlinkOk then (t, .error .symlinkFailed)
          else (t, .ok pointerPath)

/-- Number of `tryLock` actions in a trace. -/
def countTryLocks (t : List Action) : Nat :=
  (t.filter fun a => match a with | .tryLock _ => true | _ => false).length

/-- Number of `transferAttempt` actions in a trace. -/
def countTransferAttempts (t : List Action) : Nat :=
  (t.filter fun a => match a with | .transferAttempt _ _ => true | _ => false).length

/-! ### Pipeline completeness verification

The verification stage of `DiffusionPipelineDownloader.tryDownloadFormat`
(`src/hub/utils.go`, second document, lines 421–482): after the
pattern-filtered snapshot download, every component of the index that is
not in the ignored set must own at least one weight file. -/

/-- One `os.DirEntry` of a component directory. -/
structure DirEntry where
  name : String
  isDir : Bool
deriving DecidableEq, Repr

/-- The `ignoredFolders` map literal of `tryDownloadFormat`. -/
def ignoredFolders : List String :=
  ["scheduler", "tokenizer", "tokenizer_2", "tokenizer_3",
   "feature_extractor", "safety_checker", "image_encoder"]

/-- The per-component weight pattern of `tryDownloadFormat`:
`"*." + variant + format` when a variant is requested, else
`"*" + format`. -/
def weightPattern (variant format : String) : String :=
  if variant ≠ "" then "*." ++ variant ++ format else "*" ++ format

/-- Whether one directory listing satisfies the weight check: some
non-directory entry whose plain name matches the pattern (a
`filepath.Match` error skips the entry). -/
def hasComponentWeights (files : List DirEntry) (variant format : String) : Bool :=
  files.any fun f => !f.isDir && goMatchBool (weightPattern variant format) f.name

/-- The `missingComponents` accumulation of `tryDownloadFormat`:
a component is missing when it is not ignored and its directory does not
exist (`none`), cannot be read (also `none`), or holds no matching
weight file.  `dir` is the `os.ReadDir` oracle for the snapshot. -/
def missingComponents (components : List String) (dir : String → Option (List DirEntry))
    (variant format : String) : List String :=
  components.filter fun c =>
    !ignoredFolders.contains c &&
      (match dir c with
       | none => true
       | some files => !hasComponentWeights files variant format)

/-- The verification verdict of `tryDownloadFormat`: the format is
accepted exactly when no component is reported missing. -/
def verifyFormat (components : List String) (dir : String → Option (List DirEntry))
    (variant format : String) : Bool :=
  missingComponents components dir variant format = []

/-- Modelled from the spec: the ignored set as the specification words it
— `scheduler`, any component whose name starts with `tokenizer`,
`feature_extractor`, `safety_checker`, `image_encoder`. -/
def specIgnoredComponent (c : String) : Bool :=
  c = "scheduler" || goHasPrefix c "tokenizer" || c = "feature_extractor" ||
    c = "safety_checker" || c = "image_encoder"

/-- Modelled from the spec: completeness verification as the claim states
it, with the spec's ignored set. -/
def specVerifyFormat (components : List String) (dir : String → Option (List DirEntry))
    (variant format : String) : Bool :=
  components.all fun c =>
    specIgnoredComponent c ||
      (match dir c with
       | none => false
       | some files => hasComponentWeights files variant format)

/-! ## Theorems settling the claims -/

/-! ### C5 — transfer client timeouts -/

/-- C5, counterexample.  The claim says *every* HTTP client used for the
ranged blob transfer, on both the single-file and the parallel path, has
no overall timeout and 60 s per-phase timeouts.  The client that
`downloadFile` (the single-file transfer, `file_download.go` 191–193)
builds instead carries a 30-minute overall timeout and leaves every
per-phase timeout unset, so the claim fails on the single-file path. -/
theorem c5_counterexample :
    isSpecTransferClient downloadFileClientConfig = false ∧
      downloadFileClientConfig.timeoutMs = 1800000 ∧
      downloadFileClientConfig.dialTimeoutMs = none := by
  decide

/-- C5, amended.  The clients of `downloadWithBar` (parallel snapshot
path) and `downloadWithResume` are configured exactly as the claim says
— no overall timeout, 60 s dial / TLS-handshake / response-header /
idle-connection timeouts — but the single-file transfer `downloadFile`
uses a plain client with a 30-minute overall timeout and the default
transport (no per-phase timeouts). -/
theorem c5_thm :
    isSpecTransferClient downloadWithBarClientConfig = true ∧
      isSpecTransferClient downloadWithResumeClientConfig = true ∧
      downloadFileClientConfig =
        { timeoutMs := 1800000, dialTimeoutMs := none, tlsHandshakeTimeoutMs := none,
          responseHeaderTimeoutMs := none, idleConnTimeoutMs := none } := by
  decide

/-! ### C7 — pipeline completeness verification -/

/-- A snapshot directory oracle holding a weight-less `tokenizer_4`
component directory. -/
def exDirC7 : String → Option (List DirEntry) := fun c =>
  if c = "tokenizer_4" then some [⟨"special_tokens_map.json", false⟩] else none

/-- C7, counterexample.  The claim's ignored set contains *any* component
whose name starts with `tokenizer`, so for an index whose only component
is `tokenizer_4` (holding no weight file) it predicts the format check
succeeds.  The code ignores only the literal names `tokenizer`,
`tokenizer_2` and `tokenizer_3` (`utils.go` 421–429), verifies
`tokenizer_4`, finds no `*.safetensors` file and fails the format. -/
theorem c7_counterexample :
    specVerifyFormat ["tokenizer_4"] exDirC7 "" ".safetensors" = true ∧
      verifyFormat ["tokenizer_4"] exDirC7 "" ".safetensors" = false := by
  constructor
  · rfl
  · rfl

/-- C7, amended.  Completeness verification accepts a format exactly when
every component outside the literal ignored set `{scheduler, tokenizer,
tokenizer_2, tokenizer_3, feature_extractor, safety_checker,
image_encoder}` has a directory listing with at least one non-directory
entry whose plain name glob-matches `*.<variant><format>` (variant
requested) or `*<format>` (otherwise); a missing or unreadable component
directory fails the check. -/
theorem c7_thm (components : List String) (dir : String → Option (List DirEntry))
    (variant format : String) :
    verifyFormat components dir variant format = true ↔
      ∀ c ∈ components, ignoredFolders.contains c = true ∨
        ∃ fs, dir c = some fs ∧ hasComponentWeights fs variant format = true := by
  unfold verifyFormat missingComponents
  rw [decide_eq_true_iff, List.filter_eq_nil_iff]
  refine forall_congr' fun c => imp_congr_right fun _ => ?_
  cases hdir : dir c with
  | none => simp [hdir, List.elem_iff]
  | some fs =>
    simp only [hdir, List.elem_iff, Bool.not_eq_true, Bool.and_eq_true, Bool.not_eq_false,
      Option.some.injEq]
    constructor
    · intro h
      by_cases hm : c ∈ ignoredFolders
      · exact Or.inl (by simpa [List.elem_iff] using hm)
      · right
        refine ⟨fs, rfl, ?_⟩
        by_cases hw : hasComponentWeights fs variant format
        · exact hw
        · exact absurd (h ⟨by simpa [List.elem_iff] using hm, by simp [hw]⟩) (by simp)
    · rintro (hm | ⟨fs2, hfs2, hw⟩) ⟨h1, h2⟩
      · exact absurd (by simpa [List.elem_iff] using hm) (by simpa [List.elem_iff] using h1)
      · cases hfs2
        exact absurd hw (by simpa using h2)

/-- C7, witness for the amended theorem: a `unet` component with a
variant weight file passes verification. -/
def exDirC7b : String → Option (List DirEntry) := fun c =>
  if c = "unet" then some [⟨"diffusion_pytorch_model.fp16.safetensors", false⟩,
    ⟨"config.json", false⟩]
  else if c = "scheduler" then none
  else none

/-- C7, witness: the amended characterisation applied to a concrete index
`[unet, scheduler]` with an `fp16` variant. -/
theorem c7_witness :
    verifyFormat ["unet", "scheduler"] exDirC7b "fp16" ".safetensors" = true :=
  (c7_thm ["unet", "scheduler"] exDirC7b "fp16" ".safetensors").mpr (by
    intro c hc
    fin_cases hc
    · exact Or.inr ⟨[⟨"diffusion_pytorch_model.fp16.safetensors", false⟩,
        ⟨"config.json", false⟩], rfl, by rfl⟩
    · exact Or.inl (by rfl))

/-! ### C9 — large-file pointer parsing -/

/-- A pointer body holding a well-formed `oid sha256:<64-hex>` line and a
`size 0` line. -/
def exBodyC9 : String :=
  "version https://git-lfs.github.com/spec/v1\noid sha256:aaaaaaaaaaaaaaaaaaaaaaaaaaaaaaaaaaaaaaaaaaaaaaaaaaaaaaaaaaaaaaaa\nsize 0\n"

/-- C9, counterexample.  This body contains both an `oid sha256:<hex>`
line and a `size <integer>` line, so the claim says parsing succeeds and
returns size `0`.  `fetchLFSPointer` however treats `size == 0` as an
invalid pointer (`utils.go` 167) and fails. -/
theorem c9_counterexample : fetchLFSPointerParse exBodyC9 = none := by
  decide

/-- The fold of `fetchLFSPointer` keeps the sha of the last `oid sha256:`
line and the parsed value of the last `size ` line, falling back to the
accumulator. -/
theorem lfsScan_foldl_eq (lines : List String) : ∀ a b,
    lines.foldl lfsStep (a, b) =
      ((lastOidSha lines).getD a, (lastSizeVal lines).getD b) := by
  induction lines with
  | nil => intro a b; rfl
  | cons l ls ih =>
    intro a b
    rw [List.foldl_cons]
    by_cases h1 : goHasPrefix l "oid sha256:"
    · have hno : goHasPrefix l "size " = false := by
        cases hd : l.data with
        | nil => simp [goHasPrefix, hd, charsHavePre] at h1
        | cons c cs =>
          simp only [goHasPrefix, hd, charsHavePre] at h1 ⊢
          simp only [Bool.and_eq_true, decide_eq_true_eq] at h1
          simp [← h1.1, charsHavePre]
      rw [show lfsStep (a, b) l = (charDrop l 11, b) by simp [lfsStep, h1]]
      rw [ih]
      simp only [lastOidSha, lastSizeVal, h1, hno]
      cases lastOidSha ls <;> cases lastSizeVal ls <;> simp [Option.orElse]
    · by_cases h2 : goHasPrefix l "size "
      · rw [show lfsStep (a, b) l = (a, (goAtoi (charDrop l 5)).getD 0) by
          simp [lfsStep, h1, h2]]
        rw [ih]
        simp only [lastOidSha, lastSizeVal, h1, h2]
        cases lastOidSha ls <;> cases lastSizeVal ls <;> simp [Option.orElse]
      · rw [show lfsStep (a, b) l = (a, b) by simp [lfsStep, h1, h2]]
        rw [ih]
        simp only [lastOidSha, lastSizeVal, h1, h2]
        cases lastOidSha ls <;> cases lastSizeVal ls <;> simp [Option.orElse]

/-- C9, amended.  Pointer parsing scans all lines, keeping the *last*
`oid sha256:` sha and the *last* `size ` value (an unparsable value
counting as `0`); it fails with the invalid-pointer error exactly when
that sha is empty or that size is `0` — in particular a literal `size 0`
line is rejected — and otherwise succeeds returning them. -/
theorem c9_thm (body : String) :
    fetchLFSPointerParse body =
      if extractSha body = "" ∨ extractSize body = 0 then none
      else some ⟨extractSha body, extractSize body⟩ := by
  unfold fetchLFSPointerParse lfsScanLines extractSha extractSize
  rw [lfsScan_foldl_eq]

/-! ### C6 — `model_index.json` parsing -/

/-- A `model_index.json` object whose non-underscore keys hold a
two-element string array, a boolean, and a numeric scalar. -/
def exIndexC6 : List (String × JSON) :=
  [("_class_name", JSON.str "StableDiffusionXLPipeline"),
   ("force_zeros_for_empty_prompt", JSON.bool true),
   ("unet", JSON.arr [JSON.str "diffusers", JSON.str "UNet2DConditionModel"]),
   ("sample_size", JSON.num 64)]

/-- C6, counterexample.  The claim says a non-array, non-underscore key
holding a scalar (here the number `64` under `sample_size`) is ignored
without failing the parse.  `ModelIndex.UnmarshalJSON` instead feeds
every non-underscore, non-boolean value to `json.Unmarshal(value,
&component)` and returns its error, so the parse fails on this object. -/
theorem c6_counterexample : modelIndexUnmarshal exIndexC6 = none := by
  rfl

/-- The component loop succeeds exactly when every non-underscore,
non-boolean value unmarshals as a string array. -/
theorem componentLoop_isSome (kvs : List (String × JSON)) :
    (componentLoop kvs).isSome = true ↔
      ∀ kv ∈ kvs, goHasPrefix kv.1 "_" = true ∨ isBooleanJson kv.2 = true ∨
        (unmarshalStringList kv.2).isSome = true := by
  induction kvs with
  | nil => simp [componentLoop]
  | cons kv rest ih =>
    rw [List.forall_mem_cons]
    unfold componentLoop
    by_cases h1 : goHasPrefix kv.1 "_" = true
    · rw [if_neg (by simp [h1]), ih]
      simp [h1]
    · by_cases h2 : isBooleanJson kv.2 = true
      · rw [if_neg (by simp [h2]), ih]
        simp [h2]
      · rw [if_pos (by simp [h1, h2])]
        cases hu : unmarshalStringList kv.2 with
        | none =>
          apply iff_of_false
          · simp
          · rintro ⟨hkv, _⟩
            rcases hkv with h | h | h
            · exact h1 h
            · exact h2 h
            · simp at h
        | some comp =>
          cases hc : componentLoop rest with
          | none =>
            apply iff_of_false
            · simp
            · rintro ⟨_, hrest⟩
              have hsome := ih.mpr hrest
              rw [hc] at hsome
              simp at hsome
          | some cs =>
            apply iff_of_true
            · simp
            · exact ⟨Or.inr (Or.inr (by simp)), ih.mp (by rw [hc]; simp)⟩

/-- The metadata parse succeeds exactly when the `_class_name` and
`_diffusers_version` keys (when present) hold strings or `null`. -/
theorem tempIndexParse_isSome (kvs : List (String × JSON)) :
    (tempIndexParse kvs).isSome = true ↔
      ∀ kv ∈ kvs, (kv.1 = "_class_name" ∨ kv.1 = "_diffusers_version") →
        (unmarshalGoString kv.2).isSome = true := by
  induction kvs with
  | nil => simp [tempIndexParse]
  | cons kv rest ih =>
    rw [List.forall_mem_cons]
    unfold tempIndexParse
    cases ht : tempIndexParse rest with
    | none =>
      apply iff_of_false
      · simp
      · rintro ⟨_, hrest⟩
        have hsome := ih.mpr hrest
        rw [ht] at hsome
        simp at hsome
    | some acc =>
      have ihr : ∀ kv ∈ rest, (kv.1 = "_class_name" ∨ kv.1 = "_diffusers_version") →
          (unmarshalGoString kv.2).isSome = true := ih.mp (by rw [ht]; simp)
      show (if kv.1 = "_class_name" then
          match unmarshalGoString kv.2 with
          | none => none
          | some s => some (s, acc.2)
        else if kv.1 = "_diffusers_version" then
          match unmarshalGoString kv.2 with
          | none => none
          | some s => some (acc.1, s)
        else some acc).isSome = true ↔ _
      by_cases h1 : kv.1 = "_class_name"
      · rw [if_pos h1]
        cases hu : unmarshalGoString kv.2 with
        | none =>
          apply iff_of_false
          · simp
          · rintro ⟨hkv, _⟩
            have hcontr := hkv (Or.inl h1)
            simp at hcontr
        | some sv =>
          apply iff_of_true
          · simp
          · exact ⟨fun _ => by simp, ihr⟩
      · rw [if_neg h1]
        by_cases h2 : kv.1 = "_diffusers_version"
        · rw [if_pos h2]
          cases hu : unmarshalGoString kv.2 with
          | none =>
            apply iff_of_false
            · simp
            · rintro ⟨hkv, _⟩
              have hcontr := hkv (Or.inr h2)
              simp at hcontr
          | some sv =>
            apply iff_of_true
            · simp
            · exact ⟨fun _ => by simp, ihr⟩
        · rw [if_neg h2]
          apply iff_of_true
          · simp
          · exact ⟨fun hor => (hor.elim (fun h => absurd h h1) fun h => absurd h h2), ihr⟩

/-- On success the component loop returns exactly the non-underscore,
non-boolean keys with their decoded arrays, in document order. -/
theorem componentLoop_eq (kvs : List (String × JSON)) (cs : List (String × List String)) :
    componentLoop kvs = some cs →
      cs = kvs.filterMap fun kv =>
        if !goHasPrefix kv.1 "_" && !isBooleanJson kv.2 then
          (unmarshalStringList kv.2).map fun l => (kv.1, l)
        else none := by
  induction kvs generalizing cs with
  | nil =>
    intro h
    unfold componentLoop at h
    cases h
    rfl
  | cons kv rest ih =>
    intro h
    unfold componentLoop at h
    simp only [List.filterMap_cons]
    by_cases h1 : goHasPrefix kv.1 "_" = true
    · rw [if_neg (by simp [h1])] at h
      rw [show (if !goHasPrefix kv.1 "_" && !isBooleanJson kv.2 then
          (unmarshalStringList kv.2).map fun l => (kv.1, l) else none) = none by simp [h1]]
      exact ih cs h
    · by_cases h2 : isBooleanJson kv.2 = true
      · rw [if_neg (by simp [h2])] at h
        rw [show (if !goHasPrefix kv.1 "_" && !isBooleanJson kv.2 then
            (unmarshalStringList kv.2).map fun l => (kv.1, l) else none) = none by simp [h2]]
        exact ih cs h
      · rw [if_pos (by simp [h1, h2])] at h
        cases hu : unmarshalStringList kv.2 with
        | none =>
          rw [hu] at h
          exact absurd h (by simp)
        | some comp =>
          rw [hu] at h
          cases hc : componentLoop rest with
          | none =>
            rw [hc] at h
            exact absurd h (by simp)
          | some cs2 =>
            rw [hc] at h
            simp only [Option.some.injEq] at h
            subst h
            rw [show (if !goHasPrefix kv.1 "_" && !isBooleanJson kv.2 then
                Option.map (fun l => (kv.1, l)) (some comp) else none) =
                some (kv.1, comp) by simp [h1, h2]]
            rw [ih cs2 hc]

/-- C6, amended.  Parsing a `model_index.json` object succeeds exactly
when the `_class_name`/`_diffusers_version` values (if present) are
strings and every other non-underscore key holds either a boolean (or
`null`), which is skipped, or a JSON array of strings, which becomes a
component; any other value — including a string or numeric scalar —
makes the parse fail.  On success the components are exactly the
non-underscore, non-boolean keys with their decoded arrays. -/
theorem c6_thm (kvs : List (String × JSON)) :
    ((modelIndexUnmarshal kvs).isSome = true ↔
      ((∀ kv ∈ kvs, (kv.1 = "_class_name" ∨ kv.1 = "_diffusers_version") →
          (unmarshalGoString kv.2).isSome = true) ∧
        ∀ kv ∈ kvs, goHasPrefix kv.1 "_" = true ∨ isBooleanJson kv.2 = true ∨
          (unmarshalStringList kv.2).isSome = true)) ∧
    (∀ r, modelIndexUnmarshal kvs = some r →
      r.components = kvs.filterMap fun kv =>
        if !goHasPrefix kv.1 "_" && !isBooleanJson kv.2 then
          (unmarshalStringList kv.2).map fun l => (kv.1, l)
        else none) := by
  constructor
  · unfold modelIndexUnmarshal
    cases ht : tempIndexParse kvs with
    | none =>
      apply iff_of_false
      · simp
      · intro h
        have hsome := (tempIndexParse_isSome kvs).mpr h.1
        rw [ht] at hsome
        simp at hsome
    | some meta =>
      cases hc : componentLoop kvs with
      | none =>
        apply iff_of_false
        · simp
        · intro h
          have hsome := (componentLoop_isSome kvs).mpr h.2
          rw [hc] at hsome
          simp at hsome
      | some cs =>
        apply iff_of_true
        · simp
        · exact ⟨(tempIndexParse_isSome kvs).mp (by rw [ht]; simp),
            (componentLoop_isSome kvs).mp (by rw [hc]; simp)⟩
  · intro r hr
    unfold modelIndexUnmarshal at hr
    cases ht : tempIndexParse kvs with
    | none =>
      rw [ht] at hr
      exact absurd hr (by simp)
    | some meta =>
      rw [ht] at hr
      cases hc : componentLoop kvs with
      | none =>
        rw [hc] at hr
        exact absurd hr (by simp)
      | some cs =>
        rw [hc] at hr
        simp only [Option.some.injEq] at hr
        subst hr
        exact componentLoop_eq kvs cs hc

/-- A well-formed `model_index.json` object: metadata string, a component
array, a skipped boolean. -/
def exIndexC6ok : List (String × JSON) :=
  [("_class_name", JSON.str "StableDiffusion3Pipeline"),
   ("unet", JSON.arr [JSON.str "diffusers", JSON.str "UNet2DConditionModel"]),
   ("force_zeros_for_empty_prompt", JSON.bool true)]

/-- C6, witness: the amended characterisation applied to a concrete
object — the parse succeeds and yields exactly the `unet` component. -/
theorem c6_witness :
    (modelIndexUnmarshal exIndexC6ok).isSome = true ∧
      (⟨"StableDiffusion3Pipeline", "",
        [("unet", ["diffusers", "UNet2DConditionModel"])]⟩ : ModelIndex).components =
        exIndexC6ok.filterMap (fun kv =>
          if !goHasPrefix kv.1 "_" && !isBooleanJson kv.2 then
            (unmarshalStringList kv.2).map fun l => (kv.1, l)
          else none) :=
  ⟨(c6_thm exIndexC6ok).1.mpr (by decide),
    (c6_thm exIndexC6ok).2
      ⟨"StableDiffusion3Pipeline", "", [("unet", ["diffusers", "UNet2DConditionModel"])]⟩
      (by rfl)⟩

/-! ### C8 — pattern filter and its monotonicity -/

/-- C8, confirmed.  `filterFilesByPattern` returns all files when both
pattern lists are empty, otherwise exactly the files that match no
ignore pattern and either match an allow pattern or the allow list is
empty; consequently the result is contained in the ignore-free filter
and avoids every ignore pattern. -/
theorem c8_thm (files allowPatterns ignorePatterns : List String) :
    ((allowPatterns = [] ∧ ignorePatterns = []) →
      filterFilesByPattern files allowPatterns ignorePatterns = files) ∧
    (¬(allowPatterns = [] ∧ ignorePatterns = []) →
      filterFilesByPattern files allowPatterns ignorePatterns =
        files.filter fun file => !matchesAnyPattern file ignorePatterns &&
          (allowPatterns.length = 0 || matchesAnyPattern file allowPatterns)) ∧
    (∀ f, f ∈ filterFilesByPattern files allowPatterns ignorePatterns →
      f ∈ filterFilesByPattern files allowPatterns []) ∧
    (∀ f, f ∈ filterFilesByPattern files allowPatterns ignorePatterns →
      matchesAnyPattern f ignorePatterns = false) := by
  have hguard : ∀ A I : List String, (A.length = 0 ∧ I.length = 0) ↔ (A = [] ∧ I = []) := by
    intro A I
    rw [List.length_eq_zero, List.length_eq_zero]
  refine ⟨?_, ?_, ?_, ?_⟩
  · rintro ⟨hA, hI⟩
    subst hA; subst hI
    simp [filterFilesByPattern]
  · intro h
    rw [filterFilesByPattern, if_neg]
    rw [hguard]
    exact h
  · intro f hf
    by_cases hI : ignorePatterns = []
    · subst hI; exact hf
    · rw [filterFilesByPattern, if_neg (by rw [hguard]; rintro ⟨_, h⟩; exact hI h)] at hf
      rw [List.mem_filter] at hf
      by_cases hA : allowPatterns = []
      · subst hA
        rw [filterFilesByPattern, if_pos (by simp)]
        exact hf.1
      · rw [filterFilesByPattern, if_neg (by rw [hguard]; rintro ⟨h, _⟩; exact hA h)]
        rw [List.mem_filter]
        refine ⟨hf.1, ?_⟩
        have h2 := hf.2
        rw [Bool.and_eq_true] at h2
        have h3 := h2.2
        rw [Bool.or_eq_true] at h3
        rcases h3 with h3 | h3
        · exact absurd (List.length_eq_zero.mp (by simpa using h3)) hA
        · simp [show matchesAnyPattern f ([] : List String) = false from rfl, h3]
  · intro f hf
    by_cases hb : allowPatterns.length = 0 ∧ ignorePatterns.length = 0
    · have hI : ignorePatterns = [] := List.length_eq_zero.mp hb.2
      subst hI
      simp [matchesAnyPattern]
    · rw [filterFilesByPattern, if_neg hb] at hf
      rw [List.mem_filter, Bool.and_eq_true] at hf
      have := hf.2.1
      rwa [Bool.not_eq_true'] at this

/-- C8, witness: the characterisation and both monotonicity inclusions
applied to a concrete file list and pattern lists. -/
theorem c8_witness :
    filterFilesByPattern ["a.txt"] [] [] = ["a.txt"] ∧
      "text_encoder/x.bin" ∈
        filterFilesByPattern ["text_encoder/x.bin", "unet/y.bin"] ["text_encoder/*"] [] ∧
      matchesAnyPattern "text_encoder/x.bin" ["*.json"] = false :=
  ⟨(c8_thm ["a.txt"] [] []).1 ⟨rfl, rfl⟩,
    (c8_thm ["text_encoder/x.bin", "unet/y.bin"] ["text_encoder/*"] ["*.json"]).2.2.1
      "text_encoder/x.bin" (by decide),
    (c8_thm ["text_encoder/x.bin", "unet/y.bin"] ["text_encoder/*"] ["*.json"]).2.2.2
      "text_encoder/x.bin" (by decide)⟩

/-! ### C10 — lowercase-only commit-hash detection -/

/-- Inside `fileDownloadAfterFastPath` the metadata request is always in
the trace. -/
theorem metadataFetch_mem (env : SingleFileEnv) (fileName storageFolder : String)
    (t : List Action) :
    Action.metadataFetch env.repoId fileName ∈
      (fileDownloadRun.fileDownloadAfterFastPath env fileName storageFolder t).1 := by
  unfold fileDownloadRun.fileDownloadAfterFastPath
  cases env.metadata with
  | none => simp
  | some md =>
    simp only []
    repeat' split
    all_goals simp [List.mem_append]

/-- C10, confirmed.  A 40-character revision containing an uppercase hex
letter fails both commit-hash tests, so the single-file fast path that
would stat `snapshots/<revision>/<filename>` before metadata resolution
is skipped (the metadata request always happens when online), and both
cache-only lookups resolve the revision through `refs/<revision>`
instead of treating it as a snapshot directory name. -/
theorem c10_thm (s : String) (hlen : s.length = 40)
    (hup : ∃ c ∈ s.data, c ∈ (['A', 'B', 'C', 'D', 'E', 'F'] : List Char)) :
    isCommitHash s = false ∧
      commitHashRegexMatches s = false ∧
      (∀ fs cacheDir repoId repoType fileName,
        findInCache fs cacheDir repoId repoType fileName s =
          findInCacheRefs fs (joinPath cacheDir (repoFolderName repoId repoType)) fileName s) ∧
      (∀ fs cacheDir repoId repoType,
        findCachedSnapshot fs cacheDir repoId repoType s =
          findCachedSnapshotRefs fs (joinPath cacheDir (repoFolderName repoId repoType)) s) ∧
      (∀ env : SingleFileEnv, env.revision = s → revisionFastPath env = false) ∧
      (∀ env : SingleFileEnv, env.revision = s → env.offline = false →
        env.localFilesOnly = false → validRepoType env.repoType = true →
        Action.metadataFetch env.repoId
            (if env.subFolder ≠ "" then joinPath env.subFolder env.fileName
              else env.fileName) ∈
          (fileDownloadRun env).1) := by
  have hall : (s.data.all fun c => ('0' ≤ c && c ≤ '9') || ('a' ≤ c && c ≤ 'f')) = false := by
    rcases hup with ⟨c, hc, hmem⟩
    have hpred : (('0' ≤ c && c ≤ '9') || ('a' ≤ c && c ≤ 'f')) = false := by
      fin_cases hmem <;> decide
    rw [Bool.eq_false_iff]
    intro h
    rw [List.all_eq_true] at h
    have := h c hc
    rw [hpred] at this
    exact Bool.false_ne_true this
  have hic : isCommitHash s = false := by
    rw [isCommitHash, if_neg (by simp [hlen])]
    exact hall
  have hre : commitHashRegexMatches s = false := by
    rw [commitHashRegexMatches, hall, Bool.and_false]
  refine ⟨hic, hre, ?_, ?_, ?_, ?_⟩
  · intro fs cacheDir repoId repoType fileName
    rw [findInCache]
    simp [hre]
  · intro fs cacheDir repoId repoType
    rw [findCachedSnapshot]
    simp [hic]
  · intro env henv
    rw [revisionFastPath, henv, hre, Bool.false_and, Bool.false_and]
  · intro env henv hoff hloc htype
    rw [fileDownloadRun]
    simp only [hoff, hloc, Bool.or_self, Bool.false_eq_true, if_false, htype,
      Bool.not_true, henv, hre]
    exact metadataFetch_mem env _ _ _

/-- A 40-character revision made of uppercase `A`s. -/
def exUpperRev : String := "AAAAAAAAAAAAAAAAAAAAAAAAAAAAAAAAAAAAAAAA"

/-- An online single-file environment whose requested revision is
`exUpperRev`. -/
def exEnvC10 : SingleFileEnv :=
  { cacheDir := "/c", repoId := "o/r", repoType := "model", fileName := "f.bin",
    subFolder := "", revision := exUpperRev, force := false, offline := false,
    localFilesOnly := false, fs := ⟨fun _ => false, fun _ => none⟩,
    revSnapshotExists := false, metadata := some ⟨"c1hash", "e1", "http://u/f", 10⟩,
    pointerExists := false, blobExists := false, lockAcquired := true,
    transferOk := true, renameOk := true, symlinkOk := true }

/-- C10, witness: the theorem applied to the all-uppercase revision and a
concrete online environment. -/
theorem c10_witness :
    isCommitHash exUpperRev = false ∧
      commitHashRegexMatches exUpperRev = false ∧
      revisionFastPath exEnvC10 = false ∧
      Action.metadataFetch "o/r" "f.bin" ∈ (fileDownloadRun exEnvC10).1 := by
  have h := c10_thm exUpperRev (by decide) (by decide)
  exact ⟨h.1, h.2.1, h.2.2.2.2.1 exEnvC10 rfl,
    h.2.2.2.2.2 exEnvC10 rfl rfl rfl (by decide)⟩

/-! ### C1 — size check at EOF -/

/-- A fresh transfer with a known total of 10 bytes whose body delivers
only 5 bytes before a clean EOF. -/
def exEnvC1 : TransferEnv :=
  { initSize := none, statusCode := 200, contentLength := 10,
    chunks := [⟨5, 0, true⟩], readErr := false }

/-- C1, counterexample.  The metadata declared a total of 10 bytes, the
body reached EOF after 5, yet `downloadFile` (`file_download.go`
253–277) returns success: it never compares the bytes written against
the total, contradicting the claim that every transfer fails with a
size mismatch in this situation. -/
theorem c1_counterexample :
    (downloadFileRun exEnvC1 10).err = none ∧
      (downloadFileRun exEnvC1 10).fileBytes = 5 := by
  decide

/-- The loop-and-check phase of `downloadWithResume` only returns success
when no positive total is known or the byte count matches it. -/
theorem downloadLoopPhase_ok (e : TransferEnv) (renameOk : Bool) (fb0 dl0 : Nat)
    (totalSize : Int) :
    (downloadWithResumeRun.downloadLoopPhase e renameOk fb0 dl0 totalSize).err = none →
      (downloadWithResumeRun.downloadLoopPhase e renameOk fb0 dl0 totalSize).totalSize ≤ 0 ∨
        ((downloadWithResumeRun.downloadLoopPhase e renameOk fb0 dl0 totalSize).downloaded : Int) =
          (downloadWithResumeRun.downloadLoopPhase e renameOk fb0 dl0 totalSize).totalSize := by
  unfold downloadWithResumeRun.downloadLoopPhase
  split
  · intro h
    simp at h
  · split
    · intro h
      simp at h
    · split
      · intro h
        simp at h
      · rename_i st heq2 hread hnomis
        split
        · intro _
          show totalSize ≤ 0 ∨ (st.downloaded : Int) = totalSize
          by_cases htot : (0 : Int) < totalSize
          · right
            by_contra hne
            exact hnomis ⟨htot, hne⟩
          · left
            omega
        · intro h
          simp at h

/-- C1, amended.  Only `downloadWithResume` enforces the size check: when
it succeeds, either no positive total was known or the bytes downloaded
equal the total (reaching EOF with a known total and a different count
yields the size-mismatch error instead).  The hub transfers have no such
check: `downloadFile`'s outcome is completely independent of the
expected size it is given, and `downloadWithBar` (which is told no total
at all) returns success at EOF having written fewer bytes than the
response's `Content-Length`. -/
theorem c1_thm :
    (∀ (e : TransferEnv) (renameOk : Bool),
      (downloadWithResumeRun e renameOk).err = none →
        (downloadWithResumeRun e renameOk).totalSize ≤ 0 ∨
          ((downloadWithResumeRun e renameOk).downloaded : Int) =
            (downloadWithResumeRun e renameOk).totalSize) ∧
    (∀ (e : TransferEnv) (s1 s2 : Nat), downloadFileRun e s1 = downloadFileRun e s2) ∧
    ((downloadWithBarRun exEnvC1).err = none ∧
      (downloadWithBarRun exEnvC1).fileBytes = 5 ∧ exEnvC1.contentLength = 10) := by
  refine ⟨?_, ?_, ?_⟩
  · intro e rOk
    unfold downloadWithResumeRun
    dsimp only
    split
    · split
      · exact downloadLoopPhase_ok e rOk _ _ _
      · split
        · exact downloadLoopPhase_ok e rOk _ _ _
        · intro h
          simp at h
    · split
      · intro h
        simp at h
      · exact downloadLoopPhase_ok e rOk _ _ _
  · intro e s1 s2
    rfl
  · decide

/-- C1, witness: the amended theorem applied to a complete 5-byte
`downloadWithResume` transfer with `Content-Length` 5. -/
def exEnvC1ok : TransferEnv :=
  { initSize := none, statusCode := 200, contentLength := 5,
    chunks := [⟨5, 0, true⟩], readErr := false }

/-- C1, witness: that successful transfer downloaded exactly its total. -/
theorem c1_witness :
    (downloadWithResumeRun exEnvC1ok true).totalSize ≤ 0 ∨
      ((downloadWithResumeRun exEnvC1ok true).downloaded : Int) =
        (downloadWithResumeRun exEnvC1ok true).totalSize :=
  c1_thm.1 exEnvC1ok true (by decide)

/-! ### C4 — truncation on non-206 responses while resuming -/

/-- A resume (5 bytes already on disk) answered with status 404. -/
def exEnvC4 : TransferEnv :=
  { initSize := some 5, statusCode := 404, contentLength := 0,
    chunks := [], readErr := false }

/-- C4, counterexample.  The claim says a non-200/206 response to a
resume fails with the bad-status error *leaving the `.incomplete` file
unchanged*.  `downloadFile` (`file_download.go` 215–224) truncates the
file on *every* non-206 response before the status check, so the 5
resume bytes are destroyed (fileBytes ends at 0, not 5) even though the
transfer fails. -/
theorem c4_counterexample :
    (downloadFileRun exEnvC4 12).err = some (TransferErr.badStatus 404) ∧
      (downloadFileRun exEnvC4 12).fileBytes = 0 := by
  decide

/-- C4, amended.  With `resume_size > 0` and a status other than 200 and
206, `downloadFile` and `downloadWithBar` fail with the bad-status error
but only *after* truncating the `.incomplete` file to empty (they
truncate on every non-206 status, not only on 200); only
`downloadWithResume` fails such a resume without touching the file. -/
theorem c4_thm (e : TransferEnv) (s : Nat) (k : Nat) (renameOk : Bool)
    (hk : e.initSize = some k) (hpos : 0 < k)
    (h200 : e.statusCode ≠ 200) (h206 : e.statusCode ≠ 206) :
    downloadFileRun e s =
        { err := some (.badStatus e.statusCode), fileBytes := 0 } ∧
      downloadWithBarRun e =
        { err := some (.badStatus e.statusCode), fileBytes := 0 } ∧
      downloadWithResumeRun e renameOk =
        { err := some (.resumeFailedStatus e.statusCode), fileBytes := k,
          totalSize := 0, downloaded := k, renamed := false } := by
  refine ⟨?_, ?_, ?_⟩
  · unfold downloadFileRun
    rw [hk]
    simp [hpos, h200, h206]
  · unfold downloadWithBarRun
    rw [hk]
    simp [hpos, h200, h206]
  · unfold downloadWithResumeRun
    rw [hk]
    simp [hpos, h200, h206]

/-- C4, witness: the amended theorem at the concrete 404 resume. -/
theorem c4_witness :
    downloadFileRun exEnvC4 12 =
        { err := some (.badStatus 404), fileBytes := 0 } ∧
      downloadWithBarRun exEnvC4 =
        { err := some (.badStatus 404), fileBytes := 0 } ∧
      downloadWithResumeRun exEnvC4 true =
        { err := some (.resumeFailedStatus 404), fileBytes := 5,
          totalSize := 0, downloaded := 5, renamed := false } :=
  c4_thm exEnvC4 12 5 true rfl (by decide) (by decide) (by decide)

/-! ### C2 / C3 — worker flow versus the single-file flow -/

/-- Metadata returned for the example file. -/
def exMetaC2 : FileMetadata :=
  { commitHash := "c1hash", etag := "e1", location := "http://u/f", size := 10 }

/-- An online single-file environment with nothing cached and a
successful transfer. -/
def exSFEnvC2 : SingleFileEnv :=
  { cacheDir := "/c", repoId := "o/r", repoType := "model", fileName := "f.bin",
    subFolder := "", revision := "main", force := false, offline := false,
    localFilesOnly := false, fs := ⟨fun _ => false, fun _ => none⟩,
    revSnapshotExists := false, metadata := some exMetaC2, pointerExists := false,
    blobExists := false, lockAcquired := true, transferOk := true,
    renameOk := true, symlinkOk := true }

/-- The matching parallel-worker environment: nothing cached, first
transfer attempt succeeds. -/
def exWEnvC2 : WorkerEnv :=
  { cacheDir := "/c", repoId := "o/r", repoType := "model", fileName := "f.bin",
    force := false, metadata := some exMetaC2, pointerExists := false,
    blobExists := false, attemptOutcomes := fun _ => true, draws := fun _ => 1000,
    fuel := 601, renameOk := true, symlinkOk := true }

/-- C2, counterexample.  On the same download (no cached pointer or blob,
transfer succeeds), the single-file orchestrator acquires the advisory
`<etag>.lock` once, while the parallel worker's trace contains no lock
acquisition at all — it does not run the single-file flow of §4.8. -/
theorem c2_counterexample :
    countTryLocks (fileDownloadRun exSFEnvC2).1 = 1 ∧
      countTryLocks (parallelWorkerRun exWEnvC2).1 = 0 := by
  decide

/-- Counting `tryLock` across an append. -/
theorem countTryLocks_append (a b : List Action) :
    countTryLocks (a ++ b) = countTryLocks a + countTryLocks b := by
  unfold countTryLocks
  rw [List.filter_append, List.length_append]

/-- A replicated transfer attempt contains no `tryLock`. -/
theorem countTryLocks_replicate (n : Nat) (u d : String) :
    countTryLocks (List.replicate n (Action.transferAttempt u d)) = 0 := by
  induction n with
  | zero => rfl
  | succ n ih =>
    rw [List.replicate_succ]
    unfold countTryLocks at ih ⊢
    rw [List.filter_cons]
    simpa using ih

/-- C2, amended.  Every parallel-snapshot worker runs lock-free: its
trace never contains a `tryLock`, for any environment.  On the plain
download path (fast paths not taken, first transfer attempt succeeds)
the worker performs exactly metadata resolution, the pointer and blob
stat checks, the directory creations, one transfer into
`<blob>.incomplete`, the rename and the symlink — the single-file flow
of §4.8 *minus* the advisory-lock acquisition (and minus its ref
caching, commit-hash fast path, and repo-type validation). -/
theorem c2_thm :
    (∀ env : WorkerEnv, countTryLocks (parallelWorkerRun env).1 = 0) ∧
    (∀ (env : WorkerEnv) (md : FileMetadata), env.metadata = some md →
      env.force = false → env.pointerExists = false → env.blobExists = false →
      env.attemptOutcomes 0 = true → 1 ≤ env.fuel →
      env.renameOk = true → env.symlinkOk = true →
      parallelWorkerRun env =
        ([Action.metadataFetch env.repoId env.fileName,
          Action.statCheck (joinPath (joinPath (joinPath
            (joinPath env.cacheDir (repoFolderName env.repoId env.repoType)) "snapshots")
            md.commitHash) env.fileName),
          Action.statCheck (joinPath (joinPath
            (joinPath env.cacheDir (repoFolderName env.repoId env.repoType)) "blobs") md.etag),
          Action.mkdirAll (dirPath (joinPath (joinPath
            (joinPath env.cacheDir (repoFolderName env.repoId env.repoType)) "blobs") md.etag)),
          Action.mkdirAll (dirPath (joinPath (joinPath (joinPath
            (joinPath env.cacheDir (repoFolderName env.repoId env.repoType)) "snapshots")
            md.commitHash) env.fileName)),
          Action.transferAttempt md.location
            ((joinPath (joinPath
              (joinPath env.cacheDir (repoFolderName env.repoId env.repoType)) "blobs")
              md.etag) ++ ".incomplete"),
          Action.rename
            ((joinPath (joinPath
              (joinPath env.cacheDir (repoFolderName env.repoId env.repoType)) "blobs")
              md.etag) ++ ".incomplete")
            (joinPath (joinPath
              (joinPath env.cacheDir (repoFolderName env.repoId env.repoType)) "blobs") md.etag),
          Action.symlink
            (joinPath (joinPath
              (joinPath env.cacheDir (repoFolderName env.repoId env.repoType)) "blobs") md.etag)
            (joinPath (joinPath (joinPath
              (joinPath env.cacheDir (repoFolderName env.repoId env.repoType)) "snapshots")
              md.commitHash) env.fileName)],
          Except.ok (joinPath (joinPath (joinPath
            (joinPath env.cacheDir (repoFolderName env.repoId env.repoType)) "snapshots")
            md.commitHash) env.fileName))) := by
  constructor
  · intro env
    unfold parallelWorkerRun
    cases env.metadata with
    | none => rfl
    | some md =>
      dsimp only
      repeat' split
      all_goals
        simp [countTryLocks_append, countTryLocks_replicate, countTryLocks, List.filter]
  · intro env md hmd hforce hps hbs hout hfuel hren hsym
    have hretry : retryRun downloadSingleFileBackoff env.attemptOutcomes env.draws env.fuel 0 0
        downloadSingleFileBackoff.initialIntervalMs = (1, true) := by
      obtain ⟨f, hf2⟩ : ∃ f, env.fuel = f + 1 := ⟨env.fuel - 1, by omega⟩
      rw [hf2]
      unfold retryRun
      rw [hout]
      simp
    unfold parallelWorkerRun
    rw [hmd]
    simp [hforce, hps, hbs, hretry, hren, hsym]

/-- C2, witness: the amended theorem at the concrete environment — no
lock in the worker trace, and the download completes. -/
theorem c2_witness :
    countTryLocks (parallelWorkerRun exWEnvC2).1 = 0 ∧
      (parallelWorkerRun exWEnvC2).2 =
        Except.ok "/c/models--o--r/snapshots/c1hash/f.bin" := by
  constructor
  · exact c2_thm.1 exWEnvC2
  · rw [c2_thm.2 exWEnvC2 exMetaC2 rfl rfl rfl rfl rfl (by decide) rfl rfl]
    rfl

/-! ### C3 — retry wrapping of the transfer -/

/-- The single-file environment whose one transfer attempt fails. -/
def exSFEnvC3 : SingleFileEnv :=
  { cacheDir := "/c", repoId := "o/r", repoType := "model", fileName := "f.bin",
    subFolder := "", revision := "main", force := false, offline := false,
    localFilesOnly := false, fs := ⟨fun _ => false, fun _ => none⟩,
    revSnapshotExists := false, metadata := some exMetaC2, pointerExists := false,
    blobExists := false, lockAcquired := true, transferOk := false,
    renameOk := true, symlinkOk := true }

/-- C3, counterexample.  When its transfer fails once, the single-file
orchestrator `fileDownload` surfaces the error after exactly one
transfer attempt: there is no retry loop around the transfer at
`file_download.go` 151–155, contradicting the claim that a transient
failure is re-attempted. -/
theorem c3_counterexample :
    countTransferAttempts (fileDownloadRun exSFEnvC3).1 = 1 ∧
      (fileDownloadRun exSFEnvC3).2 = Except.error HubError.transferFailed := by
  constructor
  · decide
  · rfl

/-- Counting `transferAttempt` across an append. -/
theorem countTransferAttempts_append (a b : List Action) :
    countTransferAttempts (a ++ b) = countTransferAttempts a + countTransferAttempts b := by
  unfold countTransferAttempts
  rw [List.filter_append, List.length_append]

/-- The single-file flow after its fast path performs at most one
transfer attempt on top of the prefix trace. -/
theorem countTA_afterFastPath (env : SingleFileEnv) (fileName storageFolder : String)
    (t : List Action) :
    countTransferAttempts
        (fileDownloadRun.fileDownloadAfterFastPath env fileName storageFolder t).1 ≤
      countTransferAttempts t + 1 := by
  unfold fileDownloadRun.fileDownloadAfterFastPath
  cases env.metadata with
  | none => simp [countTransferAttempts_append, countTransferAttempts, List.filter]
  | some md =>
    dsimp only
    repeat' split
    all_goals
      simp [countTransferAttempts_append, countTransferAttempts, List.filter]

/-- C3, amended.  The single-file orchestrator performs at most one
transfer attempt — its transfer is not wrapped in any retry, so a
single transient failure surfaces immediately.  The exponential-backoff
wrapper the claim describes (initial 1 s, cap 30 s, elapsed bound 5 min,
retry on any error) exists only around the parallel per-file transfer
(`downloadSingleFile`): there, a first failed attempt whose backoff draw
respects the 5-minute envelope is followed by a second attempt. -/
theorem c3_thm :
    (∀ env : SingleFileEnv, countTransferAttempts (fileDownloadRun env).1 ≤ 1) ∧
    downloadSingleFileBackoff =
      { initialIntervalMs := 1000, maxIntervalMs := 30000, maxElapsedMs := 300000 } ∧
    (∀ (outcomes : Nat → Bool) (draws : Nat → Nat) (fuel : Nat),
      outcomes 0 = false → outcomes 1 = true → draws 0 ≤ 300000 → 2 ≤ fuel →
      retryRun downloadSingleFileBackoff outcomes draws fuel 0 0
        downloadSingleFileBackoff.initialIntervalMs = (2, true)) := by
  refine ⟨?_, rfl, ?_⟩
  · intro env
    unfold fileDownloadRun
    dsimp only
    repeat' split
    all_goals
      first
      | (simp [countTransferAttempts, List.filter]; done)
      | (refine le_trans (countTA_afterFastPath env _ _ _) ?_
         simp [countTransferAttempts, List.filter])
  · intro outcomes draws fuel h0 h1 hd hf
    obtain ⟨m, rfl⟩ : ∃ m, fuel = m + 2 := ⟨fuel - 2, by omega⟩
    show retryRun downloadSingleFileBackoff outcomes draws (m + 1 + 1) 0 0 1000 = (2, true)
    unfold retryRun
    rw [h0]
    simp only [Bool.false_eq_true, if_false]
    rw [if_neg (by simp only [downloadSingleFileBackoff]; omega)]
    unfold retryRun
    rw [h1]
    simp

/-- C3, witness: the retry engine at a concrete failing-then-succeeding
outcome sequence makes exactly two attempts and succeeds. -/
theorem c3_witness :
    retryRun downloadSingleFileBackoff (fun k => k == 1) (fun _ => 1000) 601 0 0
      downloadSingleFileBackoff.initialIntervalMs = (2, true) :=
  c3_thm.2.2 (fun k => k == 1) (fun _ => 1000) 601 rfl rfl (by decide) (by decide)

end ModelCache
